import Mathlib

/-
Verification of the event-driven simulation core: a shallow embedding of the
agent data model, the decision broker, the trigger dispatch logic, the
sensory diff, coin collection and the movement state machine, translated
from the JavaScript sources (WorldSimulator, AgentManager, SensorySystem,
BrainService, MovementSystem), together with theorems settling the spec
claims about them.

Conventions of the embedding:
- JavaScript strings stay strings (action names, ids, agent names).
- Machine time (Date.now) is a natural number of milliseconds.
- Coordinates are rationals; the source compares Math.sqrt(dx*dx + dz*dz)
  against a nonnegative radius r, which is equivalent to comparing the
  squared distance against r * r, so distances are embedded squared.
- Fallible lookups return Option; the external oracle call is modelled by
  an OracleOutcome input (network error, non-OK status, or an OK response
  carrying the parsed decision).
-/

namespace Sim

/-- A 3D position; movement and perception use only x and z. -/
structure Pos where
  x : ℚ
  y : ℚ
  z : ℚ
  deriving DecidableEq, Repr

/-- Squared 2D distance in the x z plane, the square of the
Math.sqrt(dx * dx + dz * dz) expression used throughout the source. -/
def dist2 (p q : Pos) : ℚ :=
  (q.x - p.x) * (q.x - p.x) + (q.z - p.z) * (q.z - p.z)

/-- One entry of agent.receivedTexts as pushed by AgentManager.addReceivedText. -/
structure TextMsg where
  sender : String
  message : String
  timestamp : ℕ
  read : Bool
  deriving DecidableEq, Repr

/-- decision.target: either a point in the plane or a reference to an agent
by name, mirroring the two shapes the oracle may return. -/
inductive DTarget
  | point (x z : ℚ)
  | agentRef (agent : String)
  deriving DecidableEq, Repr

/-- The JavaScript expression target.agent: the agent name for an agent
reference, undefined (none) for a point target. -/
def DTarget.agentName : DTarget → Option String
  | .point _ _ => none
  | .agentRef n => some n

/-- A decision message from the oracle. -/
structure Decision where
  action : String
  target : Option DTarget
  utterance : Option String
  deriving DecidableEq, Repr

/-- Agent state as created by AgentManager.createAgentBody. Visual-only
fields (spheres, labels, thinking indicators) are outside the embedding. -/
structure Agent where
  id : String
  name : String
  personality : String
  color : String
  position : Pos
  currentAction : String
  goalTarget : Option DTarget
  currentUtterance : Option String
  utteranceEndTime : ℕ
  coinsCollected : ℕ
  receivedTexts : List TextMsg
  isMakingDecision : Bool
  lastDecisionTime : ℕ
  deriving DecidableEq, Repr

/-- A world object from SensorySystem.worldObjects: a landmark or a
collectible coin, with its collected flag. -/
structure WorldObject where
  id : String
  name : String
  position : Pos
  type : String
  collected : Bool
  deriving DecidableEq, Repr

/-- Outcome of the fetch to the decide endpoint in BrainService. -/
inductive OracleOutcome
  | netError
  | badStatus
  | ok (decision : Option Decision)
  deriving DecidableEq, Repr

/-- BrainService.requestDecision: on a network error it catches and returns
null, on a non-OK response it logs and returns null, on an OK response it
returns result.decision. It never throws into the caller. -/
def BrainService.requestDecision : OracleOutcome → Option Decision
  | .netError => none
  | .badStatus => none
  | .ok d => d

/-- AgentManager.getAndClearReceivedTexts: return the unread messages and
mark every stored message as read (read-once drain). -/
def getAndClearReceivedTexts (a : Agent) : List TextMsg × Agent :=
  (a.receivedTexts.filter (fun t => !t.read),
   { a with receivedTexts := a.receivedTexts.map (fun t => { t with read := true }) })

/-- Which action executor the if-else chain at the end of
WorldSimulator.executeDecision (part_006) dispatches to. -/
inductive ExecCall
  | move (target : DTarget)
  | text (recipient : Option String) (utterance : String)
  | rest
  | noCall
  deriving DecidableEq, Repr

/-- The dispatch chain of executeDecision: move needs a target, text needs
an utterance and a target (the recipient is target.agent), idle rests;
anything else falls through with no executor invoked. -/
def execCallFor (d : Decision) : ExecCall :=
  match d.target with
  | some t =>
      if d.action == "move" then ExecCall.move t
      else
        match d.utterance with
        | some u =>
            if d.action == "text" then ExecCall.text t.agentName u
            else if d.action == "idle" then ExecCall.rest
            else ExecCall.noCall
        | none =>
            if d.action == "idle" then ExecCall.rest
            else ExecCall.noCall
  | none =>
      if d.action == "idle" then ExecCall.rest
      else ExecCall.noCall

/-- WorldSimulator.executeDecision (part_006): clear isMakingDecision, then
unconditionally overwrite currentAction and goalTarget with the decision
fields, then dispatch to the matching executor (second component). -/
def executeDecision (d : Decision) (a : Agent) : Agent × ExecCall :=
  ({ a with isMakingDecision := false, currentAction := d.action, goalTarget := d.target },
   execCallFor d)

/-- WorldSimulator.requestDecisionFromBrain (part_006). Returns the new
agent state, whether the oracle was contacted, and the executor dispatched
by executeDecision when a decision arrived. If isMakingDecision is already
true the call returns immediately. Otherwise the flag and lastDecisionTime
are set, getSensoryData drains the inbox, and the oracle is asked; since
BrainService.requestDecision never throws, the catch clause of the source
(the only place that clears the flag on error) cannot run for an oracle
failure, so on a none result the flag stays set. -/
def requestDecisionFromBrain (now : ℕ) (outcome : OracleOutcome) (a : Agent) :
    Agent × Bool × Option ExecCall :=
  if a.isMakingDecision then (a, false, none)
  else
    let a1 := { a with isMakingDecision := true, lastDecisionTime := now }
    let a2 := (getAndClearReceivedTexts a1).2
    match BrainService.requestDecision outcome with
    | some d =>
        let r := executeDecision d a2
        (r.1, true, some r.2)
    | none => (a2, true, none)

/-- WorldSimulator.forceAgentDecision (part_006): returns null for a
missing or busy (currentAction not idle) agent, otherwise builds sensory
data (draining the inbox) and asks the oracle directly. It neither checks
nor sets isMakingDecision. Second component: whether the oracle was
contacted. -/
def forceAgentDecision (outcome : OracleOutcome) (a : Agent) :
    Agent × Bool × Option ExecCall :=
  if a.currentAction != "idle" then (a, false, none)
  else
    let a1 := (getAndClearReceivedTexts a).2
    match BrainService.requestDecision outcome with
    | some d =>
        let r := executeDecision d a1
        (r.1, true, some r.2)
    | none => (a1, true, none)

/-- The observationType tag attached to an observation trigger by the
sensory diff. -/
inductive ObsType
  | newAgents
  | newObjects
  | agentsLeft
  | objectsLeft
  deriving DecidableEq, Repr

/-- The reason argument of WorldSimulator.triggerAgentDecision. In the
source it is a string: exactly the observation reasons contain the word
observation, and the received text reason is the literal received_text. -/
inductive TriggerReason
  | receivedText
  | observation (obsType : ObsType)
  | actionCompletion (actionType : String)
  | allCoinsCollected
  deriving DecidableEq, Repr

/-- WorldSimulator.triggerAgentDecision (part_006), for an existing agent.
Returns the agent state after the interrupt handling, whether
MovementSystem.stopMovement was called, and whether control reached the
final requestDecisionFromBrain call (which can then be composed with
requestDecisionFromBrain). Nothing happens when the simulation is stopped
or the agent already has a decision in flight. A received_text reason
interrupts any non-idle action (clearing the utterance); an observation
reason interrupts a non-idle action only for the object categories, while
the agent categories are dropped unless the agent is idle. -/
def triggerAgentDecision (simulationRunning : Bool) (reason : TriggerReason)
    (a : Agent) : Agent × Bool × Bool :=
  if !simulationRunning then (a, false, false)
  else if a.isMakingDecision then (a, false, false)
  else
    match reason with
    | .receivedText =>
        if a.currentAction != "idle" then
          ({ a with currentAction := "idle", goalTarget := none, currentUtterance := none },
           a.currentAction == "move", true)
        else (a, false, true)
    | .observation t =>
        if a.currentAction != "idle" then
          if t == ObsType.newObjects || t == ObsType.objectsLeft then
            ({ a with currentAction := "idle", goalTarget := none },
             a.currentAction == "move", true)
          else (a, false, false)
        else (a, false, true)
    | _ => (a, false, true)

/-- The stuck threshold of checkIdleAgents (5000 ms). -/
def stuckThreshold : ℕ := 5000

/-- Lookup in the agentLastDecisionTime map of the scheduler. -/
def lookupTime (m : List (String × ℕ)) (id : String) : Option ℕ :=
  (m.find? (fun p => p.1 == id)).map (fun p => p.2)

/-- The per-agent test of WorldSimulator.checkIdleAgents
(modules/world-simulator.js): the agent is currently idle and more than
stuckThreshold milliseconds have passed since its last decision (a missing
map entry counts as time 0). -/
def isStuckIdle (now : ℕ) (lastTime : Option ℕ) (a : Agent) : Bool :=
  a.currentAction == "idle" && decide (stuckThreshold < now - lastTime.getD 0)

/-- WorldSimulator.checkIdleAgents: the ids of the agents for which the
watchdog schedules a forced decision request this cycle. The test depends
only on the current action and the elapsed time, not on any trigger
history. -/
def checkIdleAgents (now : ℕ) (lastTimes : List (String × ℕ))
    (agents : List (String × Agent)) : List String :=
  (agents.filter (fun p => isStuckIdle now (lookupTime lastTimes p.1) p.2)).map
    (fun p => p.1)

/-- The 200 ms delayed callback scheduled by checkIdleAgents: it calls
requestDecisionFromBrain exactly when the agent is still idle at that
moment. -/
def stuckCallbackRequests (agentAtCallback : Agent) : Bool :=
  agentAtCallback.currentAction == "idle"

/-- The body of the 500 ms observation interval of startBrainDecisionLoop
(modules/world-simulator.js): when the simulation is running it runs the
sensory diff, the coin check, and the stuck-agent watchdog; here it yields
the ids the watchdog schedules. -/
def observationCycleWatchdog (simulationRunning : Bool) (now : ℕ)
    (lastTimes : List (String × ℕ)) (agents : List (String × Agent)) : List String :=
  if simulationRunning then checkIdleAgents now lastTimes agents else []

/-- An entry of a stored observation snapshot. The source entries also
carry display fields (name, rounded position, distance, action, utterance)
that the diff never consults; the diff compares entries by id only. -/
structure ObsEntry where
  id : String
  deriving DecidableEq, Repr

/-- One snapshot of SensorySystem.previousObservations. -/
structure Observations where
  nearbyAgents : List ObsEntry
  worldObjects : List ObsEntry
  deriving DecidableEq, Repr

/-- current.filter of entries whose id does not occur in previous: the
newAgents and newObjects computation of checkForInterestingChanges. -/
def diffNew (current previous : List ObsEntry) : List ObsEntry :=
  current.filter (fun c => !previous.any (fun p => p.id == c.id))

/-- previous.filter of entries whose id does not occur in current: the
agentsLeft and objectsLeft computation of checkForInterestingChanges. -/
def diffLeft (current previous : List ObsEntry) : List ObsEntry :=
  previous.filter (fun p => !current.any (fun c => c.id == p.id))

/-- An observation trigger raised by the diff, tagged with the changed
entries. -/
inductive ObsTrigger
  | newAgents (agents : List ObsEntry)
  | newObjects (objects : List ObsEntry)
  | agentsLeft (agents : List ObsEntry)
  | objectsLeft (objects : List ObsEntry)
  deriving DecidableEq, Repr

def ObsTrigger.isNewAgents : ObsTrigger → Bool
  | .newAgents _ => true
  | _ => false

def ObsTrigger.isNewObjects : ObsTrigger → Bool
  | .newObjects _ => true
  | _ => false

def ObsTrigger.isAgentsLeft : ObsTrigger → Bool
  | .agentsLeft _ => true
  | _ => false

def ObsTrigger.isObjectsLeft : ObsTrigger → Bool
  | .objectsLeft _ => true
  | _ => false

/-- SensorySystem.checkForInterestingChanges (part_003): diff the current
snapshot against the stored previous one (a missing entry acts as an empty
snapshot), raise one trigger per non-empty category in source order, and
return the new snapshot that unconditionally replaces the stored one. -/
def checkForInterestingChanges (previousOpt : Option Observations)
    (current : Observations) : List ObsTrigger × Observations :=
  let previous := previousOpt.getD { nearbyAgents := [], worldObjects := [] }
  let newAgents := diffNew current.nearbyAgents previous.nearbyAgents
  let newObjects := diffNew current.worldObjects previous.worldObjects
  let agentsLeft := diffLeft current.nearbyAgents previous.nearbyAgents
  let objectsLeft := diffLeft current.worldObjects previous.worldObjects
  ((if newAgents.isEmpty then [] else [ObsTrigger.newAgents newAgents]) ++
   (if newObjects.isEmpty then [] else [ObsTrigger.newObjects newObjects]) ++
   (if agentsLeft.isEmpty then [] else [ObsTrigger.agentsLeft agentsLeft]) ++
   (if objectsLeft.isEmpty then [] else [ObsTrigger.objectsLeft objectsLeft]),
   current)

/-- AgentManager.getAgent: lookup in the registry (a Map in insertion
order, embedded as an association list walked front to back). -/
def lookupAgent : List (String × Agent) → String → Option Agent
  | [], _ => none
  | p :: rest, id => if p.1 == id then some p.2 else lookupAgent rest id

/-- AgentManager.updateAgentState and friends: apply an update to the
agent stored under the given id, a no-op for an unknown id. -/
def updateAgent : List (String × Agent) → String → (Agent → Agent) → List (String × Agent)
  | [], _, _ => []
  | p :: rest, id, f =>
      (if p.1 == id then (p.1, f p.2) else p) :: updateAgent rest id f

/-- AgentManager.getAgentIdByName: the id of the first registered agent
with the given name, none if no name matches. -/
def getAgentIdByName : List (String × Agent) → String → Option String
  | [], _ => none
  | p :: rest, n => if p.2.name == n then some p.1 else getAgentIdByName rest n

/-- Externally visible happenings of the messaging path: the trigger raised
on the recipient at delivery, the completion trigger raised on the sender
when the display window elapses, and the unknown-recipient error log. -/
inductive Event
  | receivedTextTrigger (recipientId sender message : String)
  | actionCompletionText (senderId message recipient : String)
  | recipientNotFoundError (recipientName : String)
  deriving DecidableEq, Repr

/-- The synchronous part of WorldSimulator.executeText (part_006), up to
and including scheduling the 3 second timeout. Sets the sender utterance
and display deadline, looks up the recipient by name, and on success
delivers the message into the recipient inbox immediately and raises a
received_text trigger. On an unknown recipient it logs an error and
returns before the timeout is scheduled. Returns the registry, the raised
events, and whether the 3 second timeout was scheduled. Conversation
history bookkeeping and chat bubble updates are UI side effects outside
the embedding. -/
def executeTextImmediate (agentId recipientName message : String) (now : ℕ)
    (agents : List (String × Agent)) :
    List (String × Agent) × List Event × Bool :=
  match lookupAgent agents agentId with
  | none => (agents, [], false)
  | some sender =>
      let agents1 := updateAgent agents agentId (fun a =>
        { a with
          currentUtterance := some ("📱 → " ++ recipientName ++ ": " ++ message),
          utteranceEndTime := now + 3000 })
      match getAgentIdByName agents1 recipientName with
      | none => (agents1, [Event.recipientNotFoundError recipientName], false)
      | some recipientId =>
          let agents2 := updateAgent agents1 recipientId (fun a =>
            { a with receivedTexts := a.receivedTexts ++
                [{ sender := sender.name, message := message, timestamp := now, read := false }] })
          (agents2, [Event.receivedTextTrigger recipientId sender.name message], true)

/-- The 3 second setTimeout callback of executeText: clear the sender
visual state, return it to idle, and raise the text completion trigger for
the sender. -/
def executeTextTimeout (agentId recipientName message : String)
    (agents : List (String × Agent)) : List (String × Agent) × List Event :=
  (updateAgent agents agentId (fun a =>
     { a with currentAction := "idle", currentUtterance := none, utteranceEndTime := 0 }),
   [Event.actionCompletionText agentId message recipientName])

/-- The coin pickup radius of SensorySystem.checkCoinCollection. -/
def collectionRadius : ℚ := 1/2

/-- The observation radius shared by perception and the pickup check. -/
def visibilityRadius : ℚ := 1

/-- The pickup test of SensorySystem.checkCoinCollection (part_003): an
uncollected collectible whose 2D distance is within both the collection
radius and the visibility radius (compared via squared distances). -/
def coinEligible (a : Agent) (o : WorldObject) : Bool :=
  o.type == "collectible" && !o.collected &&
    decide (dist2 a.position o.position ≤ collectionRadius * collectionRadius) &&
    decide (dist2 a.position o.position ≤ visibilityRadius * visibilityRadius)

/-- SensorySystem.checkCoinCollection (part_003): walk the world objects in
insertion order, mark the first eligible coin as collected and stop (at
most one coin per check pass), returning the collected coin and the
updated object list. -/
def SensorySystem.checkCoinCollection (a : Agent) :
    List WorldObject → Option WorldObject × List WorldObject
  | [] => (none, [])
  | o :: rest =>
      if coinEligible a o then
        (some { o with collected := true }, { o with collected := true } :: rest)
      else
        let r := SensorySystem.checkCoinCollection a rest
        (r.1, o :: r.2)

/-- SensorySystem.getVisibleObjects (part_003): the world objects an agent
perceives; collected collectibles are skipped, everything else within the
visibility radius is included. The source emits rounded display entries
for these objects; membership is by the underlying object. -/
def getVisibleObjects (a : Agent) (objs : List WorldObject) : List WorldObject :=
  objs.filter (fun o =>
    !(o.type == "collectible" && o.collected) &&
      decide (dist2 a.position o.position ≤ visibilityRadius * visibilityRadius))

/-- A coin pickup performed during one world coin check pass; the source
also raises a collect_coin action completion trigger for it. -/
structure CollectEvent where
  agentId : String
  coinId : String
  deriving DecidableEq, Repr

/-- WorldSimulator.checkCoinCollection (part_006): iterate the agents in
registry insertion order; each agent runs the sensory pickup check against
the current object list, and on a pickup its coin counter is incremented
and its action reset to idle. Later agents see the already updated object
list, so the earlier agent wins any contested coin. -/
def WorldSimulator.checkCoinCollection :
    List (String × Agent) → List WorldObject →
    List (String × Agent) × List WorldObject × List CollectEvent
  | [], objs => ([], objs, [])
  | (id, a) :: rest, objs =>
      match SensorySystem.checkCoinCollection a objs with
      | (some c, objs1) =>
          let a1 := { a with coinsCollected := a.coinsCollected + 1, currentAction := "idle" }
          let r := WorldSimulator.checkCoinCollection rest objs1
          ((id, a1) :: r.1, r.2.1, { agentId := id, coinId := c.id } :: r.2.2)
      | (none, objs1) =>
          let r := WorldSimulator.checkCoinCollection rest objs1
          ((id, a) :: r.1, r.2.1, r.2.2)

/-- The arrival epsilon of MovementSystem.executeMovement (0.1 units). -/
def moveEpsilon : ℚ := 1/10

/-- The per-frame progress: min(elapsed / duration, 1). -/
def moveProgress (elapsed duration : ℚ) : ℚ := min (elapsed / duration) 1

/-- The per-frame position update of the animation loop: x and z are
interpolated linearly from the start position toward the target, y is
never written. -/
def lerpPos (startPos : Pos) (tx tz prog : ℚ) : Pos :=
  { x := startPos.x + (tx - startPos.x) * prog,
    y := startPos.y,
    z := startPos.z + (tz - startPos.z) * prog }

/-- The animate loop of MovementSystem.executeMovement, run over the
elapsed times (in seconds) of the successive animation frames. Each frame
recomputes the position from the start position; a frame with progress
below one schedules the next frame, otherwise the loop stops and the one
completion fires (second component counts completions, so the remaining
frame times are never consumed after completion). -/
def animateFrames (startPos : Pos) (tx tz duration : ℚ) :
    List ℚ → Pos → Pos × ℕ
  | [], pos => (pos, 0)
  | t :: ts, _pos =>
      let prog := moveProgress t duration
      let p := lerpPos startPos tx tz prog
      if prog < 1 then animateFrames startPos tx tz duration ts p
      else (p, 1)

/-- MovementSystem.executeMovement (scene.js) for an existing agent and a
point target. The Euclidean distance d (the square root of dist2, which is
not rational in general) is passed explicitly; theorems constrain it by
the defining properties of the square root. Duration is d / 2 (constant
speed 2 units per second). Within the 0.1 epsilon the action completes
immediately without moving; otherwise the animation loop runs over the
given frame times and, on completion, the agent returns to idle with a
cleared goal target. The second component counts the move completion
triggers raised. -/
def executeMovement (a : Agent) (tx tz d : ℚ) (frames : List ℚ) : Agent × ℕ :=
  let duration := d / 2
  if d < moveEpsilon then
    ({ a with currentAction := "idle", goalTarget := none }, 1)
  else
    let r := animateFrames a.position tx tz duration frames a.position
    if r.2 == 1 then
      ({ a with position := r.1, currentAction := "idle", goalTarget := none }, 1)
    else
      ({ a with position := r.1 }, 0)

/-- A concrete agent for closed instances: registry defaults of
createAgentBody with a chosen id, name, action and decision flag. -/
def mkAgent (id name act : String) (flag : Bool) : Agent :=
  { id := id, name := name, personality := "curious", color := "red",
    position := { x := 0, y := 0, z := 0 }, currentAction := act,
    goalTarget := none, currentUtterance := none, utteranceEndTime := 0,
    coinsCollected := 0, receivedTexts := [], isMakingDecision := flag,
    lastDecisionTime := 0 }

/-- C1 counterexample: an agent that is idle but has a decision in flight
(isMakingDecision true, the normal state while awaiting the oracle) is not
protected on the forceDecision control surface: forceAgentDecision checks
only currentAction and contacts the oracle anyway. -/
theorem C1_force_bypasses_inflight_guard :
    (mkAgent "agent1" "Alpha" "idle" true).isMakingDecision = true ∧
    (forceAgentDecision OracleOutcome.badStatus
        (mkAgent "agent1" "Alpha" "idle" true)).2.1 = true := by
  exact ⟨rfl, rfl⟩

/-- C1 (amended): while isMakingDecision is true, requestDecisionFromBrain
and triggerAgentDecision are no-ops that return immediately without
contacting the oracle; the forceAgentDecision control surface, however,
guards only on currentAction and contacts the oracle exactly when the
agent action is idle, regardless of the in-flight flag. -/
theorem C1_decision_guard (a : Agent) (now : ℕ) (outcome : OracleOutcome)
    (reason : TriggerReason) (h : a.isMakingDecision = true) :
    requestDecisionFromBrain now outcome a = (a, false, none) ∧
    triggerAgentDecision true reason a = (a, false, false) ∧
    ((forceAgentDecision outcome a).2.1 = true ↔ a.currentAction = "idle") := by
  refine ⟨?_, ?_, ?_⟩
  · simp [requestDecisionFromBrain, h]
  · simp [triggerAgentDecision, h]
  · by_cases hc : a.currentAction = "idle"
    · cases houtcome : BrainService.requestDecision outcome <;>
        simp [forceAgentDecision, hc, houtcome]
    · simp [forceAgentDecision, hc]

/-- C1 witness: the amended guard instantiated at a concrete in-flight
agent. -/
theorem C1_decision_guard_witness :
    (mkAgent "agent2" "Beta" "move" true).isMakingDecision = true ∧
    (requestDecisionFromBrain 100 OracleOutcome.netError
        (mkAgent "agent2" "Beta" "move" true)
      = (mkAgent "agent2" "Beta" "move" true, false, none) ∧
     triggerAgentDecision true TriggerReason.receivedText
        (mkAgent "agent2" "Beta" "move" true)
      = (mkAgent "agent2" "Beta" "move" true, false, false) ∧
     ((forceAgentDecision OracleOutcome.netError
          (mkAgent "agent2" "Beta" "move" true)).2.1 = true ↔
        (mkAgent "agent2" "Beta" "move" true).currentAction = "idle")) :=
  ⟨rfl, C1_decision_guard (mkAgent "agent2" "Beta" "move" true) 100
    OracleOutcome.netError TriggerReason.receivedText rfl⟩

/-- C2: evaluation of the code at the failing input. For an idle agent
with no decision in flight, a decision request that fails at the oracle
(network error or non-OK response, both of which BrainService maps to a
null decision without throwing) leaves isMakingDecision stuck at true: the
catch clause that would clear it never runs, so the next natural trigger
cannot request a decision again. The request does yield no decision. -/
theorem C2_flag_stuck_after_failure :
    ((requestDecisionFromBrain 1000 OracleOutcome.badStatus
        (mkAgent "agent1" "Alpha" "idle" false)).1).isMakingDecision = true ∧
    ((requestDecisionFromBrain 1000 OracleOutcome.netError
        (mkAgent "agent1" "Alpha" "idle" false)).1).isMakingDecision = true ∧
    (requestDecisionFromBrain 1000 OracleOutcome.badStatus
        (mkAgent "agent1" "Alpha" "idle" false)).2.2 = none := by
  exact ⟨rfl, rfl, rfl⟩

/-- C3: any agent that is currently idle and whose last decision lies more
than the 5 second stuck threshold in the past is scheduled for a forced
decision request by the watchdog of the 500 ms observation cycle (the test
reads only the action and the elapsed time, no trigger history), and the
scheduled 200 ms callback dispatches the request whenever the agent is
still idle when it runs. -/
theorem C3_watchdog_forces_decision (now : ℕ) (lastTimes : List (String × ℕ))
    (agents : List (String × Agent)) (id : String) (a agentAtCallback : Agent)
    (hmem : (id, a) ∈ agents) (hidle : a.currentAction = "idle")
    (helapsed : stuckThreshold < now - (lookupTime lastTimes id).getD 0)
    (hstill : agentAtCallback.currentAction = "idle") :
    id ∈ observationCycleWatchdog true now lastTimes agents ∧
    stuckCallbackRequests agentAtCallback = true := by
  constructor
  · have hstuck : isStuckIdle now (lookupTime lastTimes id) a = true := by
      simp [isStuckIdle, hidle, helapsed]
    simp only [observationCycleWatchdog, checkIdleAgents, if_true, List.mem_map]
    exact ⟨(id, a), List.mem_filter.mpr ⟨hmem, hstuck⟩, rfl⟩
  · simp [stuckCallbackRequests, hstill]

/-- C3 witness: an agent idle for six seconds with no recorded trigger is
forced by the watchdog. -/
theorem C3_watchdog_witness :
    ("agent1", mkAgent "agent1" "Alpha" "idle" false) ∈
        [("agent1", mkAgent "agent1" "Alpha" "idle" false)] ∧
    (mkAgent "agent1" "Alpha" "idle" false).currentAction = "idle" ∧
    stuckThreshold < 6000 - (lookupTime [("agent1", 0)] "agent1").getD 0 ∧
    ("agent1" ∈ observationCycleWatchdog true 6000 [("agent1", 0)]
        [("agent1", mkAgent "agent1" "Alpha" "idle" false)] ∧
     stuckCallbackRequests (mkAgent "agent1" "Alpha" "idle" false) = true) :=
  ⟨by decide, rfl, by decide,
   C3_watchdog_forces_decision 6000 [("agent1", 0)]
     [("agent1", mkAgent "agent1" "Alpha" "idle" false)] "agent1"
     (mkAgent "agent1" "Alpha" "idle" false)
     (mkAgent "agent1" "Alpha" "idle" false)
     (by decide) rfl (by decide) rfl⟩

/-- C4 counterexample: executing a move decision with a missing target on
an idle agent does change agent state — currentAction becomes move, not
idle — contradicting the claim that no state change occurs and the agent
remains idle. -/
theorem C4_malformed_changes_state :
    ((executeDecision
        { action := "move", target := none, utterance := none }
        (mkAgent "agent1" "Alpha" "idle" true)).1).currentAction = "move" ∧
    ((executeDecision
        { action := "move", target := none, utterance := none }
        (mkAgent "agent1" "Alpha" "idle" true)).1) ≠
      mkAgent "agent1" "Alpha" "idle" true := by
  exact ⟨rfl, by decide⟩

/-- C4 (amended): for a malformed decision — move without a target, or
text without an utterance or a target — no action executor is invoked, but
executeDecision still clears isMakingDecision and overwrites currentAction
with the decision action and goalTarget with its (absent) target; no error
is logged and the agent is left out of idle, so the idle-only watchdog
will not pick it up. -/
theorem C4_malformed_decision_behavior (a : Agent) (d : Decision)
    (hmal : (d.action = "move" ∧ d.target = none) ∨
            (d.action = "text" ∧ (d.utterance = none ∨ d.target = none))) :
    executeDecision d a =
      ({ a with isMakingDecision := false, currentAction := d.action,
                goalTarget := d.target },
       ExecCall.noCall) := by
  have hcall : execCallFor d = ExecCall.noCall := by
    rcases hmal with ⟨ha, ht⟩ | ⟨ha, hu | ht⟩
    · simp [execCallFor, ha, ht]
    · cases ht : d.target with
      | none => simp [execCallFor, ha, ht]
      | some t => simp [execCallFor, ha, ht, hu]
    · simp [execCallFor, ha, ht]
  simp [executeDecision, hcall]

/-- C4 witness: the amended behavior at a concrete malformed text decision
missing its utterance. -/
theorem C4_malformed_witness :
    (({ action := "text", target := some (DTarget.agentRef "Beta"),
        utterance := none } : Decision).action = "text" ∧
      ((({ action := "text", target := some (DTarget.agentRef "Beta"),
           utterance := none } : Decision).utterance = none) ∨
        (({ action := "text", target := some (DTarget.agentRef "Beta"),
            utterance := none } : Decision).target = none))) ∧
    executeDecision
        { action := "text", target := some (DTarget.agentRef "Beta"),
          utterance := none }
        (mkAgent "agent1" "Alpha" "idle" true) =
      ({ mkAgent "agent1" "Alpha" "idle" true with
          isMakingDecision := false, currentAction := "text",
          goalTarget := some (DTarget.agentRef "Beta") },
       ExecCall.noCall) :=
  ⟨⟨rfl, Or.inl rfl⟩,
   C4_malformed_decision_behavior (mkAgent "agent1" "Alpha" "idle" true)
     { action := "text", target := some (DTarget.agentRef "Beta"), utterance := none }
     (Or.inr ⟨rfl, Or.inl rfl⟩)⟩

/-- Membership in diffNew is set difference by id. -/
theorem mem_diffNew (cur prev : List ObsEntry) (e : ObsEntry) :
    e ∈ diffNew cur prev ↔ e ∈ cur ∧ ∀ p ∈ prev, p.id ≠ e.id := by
  simp [diffNew, List.mem_filter, List.any_eq_true]

/-- Membership in diffLeft is set difference by id, from the previous
side. -/
theorem mem_diffLeft (cur prev : List ObsEntry) (e : ObsEntry) :
    e ∈ diffLeft cur prev ↔ e ∈ prev ∧ ∀ c ∈ cur, c.id ≠ e.id := by
  simp [diffLeft, List.mem_filter, List.any_eq_true]

/-- C5: the observation diff computes the four categories as set
differences by id between the current and previous snapshots, raises
exactly one trigger per non-empty category (tagged with the changed
entries), and unconditionally stores the current snapshot as the new
previous one; in particular previous agents [b] and current agents [c]
yield triggers newAgents [c] and agentsLeft [b] when the ids differ, and
no triggers when the snapshots agree. -/
theorem C5_observation_diff (previous current : Observations) (e : ObsEntry) :
    (e ∈ diffNew current.nearbyAgents previous.nearbyAgents ↔
        e ∈ current.nearbyAgents ∧ ∀ p ∈ previous.nearbyAgents, p.id ≠ e.id) ∧
    (e ∈ diffLeft current.nearbyAgents previous.nearbyAgents ↔
        e ∈ previous.nearbyAgents ∧ ∀ c ∈ current.nearbyAgents, c.id ≠ e.id) ∧
    (e ∈ diffNew current.worldObjects previous.worldObjects ↔
        e ∈ current.worldObjects ∧ ∀ p ∈ previous.worldObjects, p.id ≠ e.id) ∧
    (e ∈ diffLeft current.worldObjects previous.worldObjects ↔
        e ∈ previous.worldObjects ∧ ∀ c ∈ current.worldObjects, c.id ≠ e.id) ∧
    ((checkForInterestingChanges (some previous) current).1.countP
        (fun tr => tr.isNewAgents)
      = if (diffNew current.nearbyAgents previous.nearbyAgents).isEmpty then 0 else 1) ∧
    ((checkForInterestingChanges (some previous) current).1.countP
        (fun tr => tr.isNewObjects)
      = if (diffNew current.worldObjects previous.worldObjects).isEmpty then 0 else 1) ∧
    ((checkForInterestingChanges (some previous) current).1.countP
        (fun tr => tr.isAgentsLeft)
      = if (diffLeft current.nearbyAgents previous.nearbyAgents).isEmpty then 0 else 1) ∧
    ((checkForInterestingChanges (some previous) current).1.countP
        (fun tr => tr.isObjectsLeft)
      = if (diffLeft current.worldObjects previous.worldObjects).isEmpty then 0 else 1) ∧
    (checkForInterestingChanges (some previous) current).2 = current ∧
    (∀ b c : ObsEntry, b.id ≠ c.id →
      (checkForInterestingChanges
          (some { nearbyAgents := [b], worldObjects := [] })
          { nearbyAgents := [c], worldObjects := [] }).1
        = [ObsTrigger.newAgents [c], ObsTrigger.agentsLeft [b]]) ∧
    (∀ b : ObsEntry,
      (checkForInterestingChanges
          (some { nearbyAgents := [b], worldObjects := [] })
          { nearbyAgents := [b], worldObjects := [] }).1 = []) := by
  refine ⟨mem_diffNew _ _ _, mem_diffLeft _ _ _, mem_diffNew _ _ _,
    mem_diffLeft _ _ _, ?_, ?_, ?_, ?_, rfl, ?_, ?_⟩
  · simp only [checkForInterestingChanges, Option.getD_some]
    split_ifs <;>
      simp [List.countP_append, List.countP_cons, ObsTrigger.isNewAgents,
        ObsTrigger.isNewObjects, ObsTrigger.isAgentsLeft, ObsTrigger.isObjectsLeft]
  · simp only [checkForInterestingChanges, Option.getD_some]
    split_ifs <;>
      simp [List.countP_append, List.countP_cons, ObsTrigger.isNewAgents,
        ObsTrigger.isNewObjects, ObsTrigger.isAgentsLeft, ObsTrigger.isObjectsLeft]
  · simp only [checkForInterestingChanges, Option.getD_some]
    split_ifs <;>
      simp [List.countP_append, List.countP_cons, ObsTrigger.isNewAgents,
        ObsTrigger.isNewObjects, ObsTrigger.isAgentsLeft, ObsTrigger.isObjectsLeft]
  · simp only [checkForInterestingChanges, Option.getD_some]
    split_ifs <;>
      simp [List.countP_append, List.countP_cons, ObsTrigger.isNewAgents,
        ObsTrigger.isNewObjects, ObsTrigger.isAgentsLeft, ObsTrigger.isObjectsLeft]
  · intro b c hbc
    have h1 : (b.id == c.id) = false := by simp [hbc]
    have h2 : (c.id == b.id) = false := by simp [Ne.symm hbc]
    simp [checkForInterestingChanges, diffNew, diffLeft, h1, h2]
  · intro b
    simp [checkForInterestingChanges, diffNew, diffLeft]

/-- C5 witness: the diff at the concrete snapshots previous = [B] and
current = [C]. -/
theorem C5_observation_diff_witness :
    (ObsEntry.mk "B").id ≠ (ObsEntry.mk "C").id ∧
    (checkForInterestingChanges
        (some { nearbyAgents := [ObsEntry.mk "B"], worldObjects := [] })
        { nearbyAgents := [ObsEntry.mk "C"], worldObjects := [] }).1
      = [ObsTrigger.newAgents [ObsEntry.mk "C"],
         ObsTrigger.agentsLeft [ObsEntry.mk "B"]] := by
  have h := C5_observation_diff
    { nearbyAgents := [ObsEntry.mk "B"], worldObjects := [] }
    { nearbyAgents := [ObsEntry.mk "C"], worldObjects := [] }
    (ObsEntry.mk "C")
  exact ⟨by decide, h.2.2.2.2.2.2.2.2.2.1 (ObsEntry.mk "B") (ObsEntry.mk "C") (by decide)⟩

/-- C6: for an agent with no decision in flight while the simulation runs:
an object observation trigger (new objects or objects left) interrupts any
non-idle action back to idle (stopping movement when moving) and reaches
the decision request; an agent presence observation trigger never
interrupts a non-idle agent and is dropped, while it is honored (reaches
the request) when the agent is already idle; and a received text trigger
always interrupts a non-idle action back to idle, clearing the utterance,
and reaches the decision request. -/
theorem C6_interrupt_policy (a : Agent) (t : ObsType)
    (hflag : a.isMakingDecision = false) (hbusy : a.currentAction ≠ "idle") :
    ((t = ObsType.newObjects ∨ t = ObsType.objectsLeft) →
      triggerAgentDecision true (TriggerReason.observation t) a =
        ({ a with currentAction := "idle", goalTarget := none },
         a.currentAction == "move", true)) ∧
    ((t = ObsType.newAgents ∨ t = ObsType.agentsLeft) →
      triggerAgentDecision true (TriggerReason.observation t) a = (a, false, false)) ∧
    (triggerAgentDecision true TriggerReason.receivedText a =
      ({ a with currentAction := "idle", goalTarget := none, currentUtterance := none },
       a.currentAction == "move", true)) ∧
    (∀ b : Agent, b.isMakingDecision = false → b.currentAction = "idle" →
      triggerAgentDecision true (TriggerReason.observation t) b = (b, false, true)) := by
  refine ⟨?_, ?_, ?_, ?_⟩
  · rintro (rfl | rfl) <;> simp [triggerAgentDecision, hflag, bne_iff_ne, hbusy]
  · rintro (rfl | rfl) <;> simp [triggerAgentDecision, hflag, bne_iff_ne, hbusy]
  · simp [triggerAgentDecision, hflag, bne_iff_ne, hbusy]
  · intro b hb hidle
    simp [triggerAgentDecision, hb, hidle]

/-- C6 witness: the policy instantiated for a moving agent and the new
objects category. -/
theorem C6_interrupt_policy_witness :
    ((mkAgent "agent1" "Alpha" "move" false).isMakingDecision = false ∧
     (mkAgent "agent1" "Alpha" "move" false).currentAction ≠ "idle") ∧
    triggerAgentDecision true (TriggerReason.observation ObsType.newObjects)
        (mkAgent "agent1" "Alpha" "move" false) =
      ({ mkAgent "agent1" "Alpha" "move" false with
          currentAction := "idle", goalTarget := none },
       (mkAgent "agent1" "Alpha" "move" false).currentAction == "move", true) := by
  have h := C6_interrupt_policy (mkAgent "agent1" "Alpha" "move" false)
    ObsType.newObjects rfl (by decide)
  exact ⟨⟨rfl, by decide⟩, h.1 (Or.inl rfl)⟩

/-- Marking every message read leaves nothing unread. -/
theorem filter_unread_mark_read (l : List TextMsg) :
    (l.map (fun t => { t with read := true })).filter (fun t => !t.read) = [] := by
  induction l with
  | nil => rfl
  | cons t ts ih => simp [List.filter_cons, ih]

/-- Read-once inbox: a second drain right after a drain yields nothing. -/
theorem drain_after_drain (a : Agent) :
    (getAndClearReceivedTexts (getAndClearReceivedTexts a).2).1 = [] := by
  simp [getAndClearReceivedTexts, filter_unread_mark_read]

/-- Updating an agent under a key keeps lookups of that key in step. -/
theorem lookupAgent_updateAgent_self (agents : List (String × Agent)) (id : String)
    (f : Agent → Agent) (a : Agent) (h : lookupAgent agents id = some a) :
    lookupAgent (updateAgent agents id f) id = some (f a) := by
  induction agents with
  | nil => simp [lookupAgent] at h
  | cons p rest ih =>
      by_cases hp : (p.1 == id) = true
      · have ha : p.2 = a := by
          simpa [lookupAgent, hp] using h
        simp [lookupAgent, updateAgent, hp, ha]
      · have h2 : lookupAgent rest id = some a := by
          simpa [lookupAgent, hp] using h
        simpa [lookupAgent, updateAgent, hp] using ih h2

/-- A name-preserving update cannot create the recipient: if no registered
agent carries the name, the lookup by name still fails afterwards. -/
theorem getAgentIdByName_update_none (agents : List (String × Agent)) (id r : String)
    (f : Agent → Agent) (hf : ∀ a, (f a).name = a.name)
    (hno : ∀ p ∈ agents, p.2.name ≠ r) :
    getAgentIdByName (updateAgent agents id f) r = none := by
  induction agents with
  | nil => rfl
  | cons p rest ih =>
      have h1 : p.2.name ≠ r := hno p (List.mem_cons_self _ _)
      have h2 : ∀ q ∈ rest, q.2.name ≠ r := fun q hq => hno q (List.mem_cons_of_mem _ hq)
      by_cases hid : (p.1 == id) = true
      · simp [updateAgent, getAgentIdByName, hid, hf, h1, ih h2]
      · simp [updateAgent, getAgentIdByName, hid, h1, ih h2]

/-- Entries under other keys are untouched by an update. -/
theorem mem_updateAgent_of_ne (agents : List (String × Agent)) (id : String)
    (f : Agent → Agent) (j : String) (aj : Agent) (hj : j ≠ id)
    (hmem : (j, aj) ∈ agents) : (j, aj) ∈ updateAgent agents id f := by
  induction agents with
  | nil => cases hmem
  | cons p rest ih =>
      rcases List.mem_cons.mp hmem with hmem | hmem
      · subst hmem
        simp [updateAgent, hj]
      · exact List.mem_cons_of_mem _ (ih hmem)

/-- C7: in a registry holding sender A under ida and recipient B (named
nb, with no unread backlog) under idb, executing a text from A to nb with
message m delivers the message into the inbox of B immediately, in the
synchronous phase that also schedules the display timeout: B gains exactly
the one unread entry with sender A.name and message m, and the
received_text trigger is raised on B. Draining the inbox of B returns
exactly that entry and a second drain returns nothing. The timeout phase
then clears the utterance of A, returns A to idle, and raises the text
action completion for A. -/
theorem C7_text_messaging (ida idb nb m : String) (A B : Agent) (now : ℕ)
    (hids : ida ≠ idb) (hAname : A.name ≠ nb) (hBname : B.name = nb)
    (hBempty : B.receivedTexts.filter (fun t => !t.read) = []) :
    executeTextImmediate ida nb m now [(ida, A), (idb, B)]
      = ([(ida, { A with currentUtterance := some ("📱 → " ++ nb ++ ": " ++ m),
                         utteranceEndTime := now + 3000 }),
          (idb, { B with receivedTexts := B.receivedTexts ++
                    [{ sender := A.name, message := m, timestamp := now, read := false }] })],
         [Event.receivedTextTrigger idb A.name m], true) ∧
    (getAndClearReceivedTexts
        { B with receivedTexts := B.receivedTexts ++
            [{ sender := A.name, message := m, timestamp := now, read := false }] }).1
      = [{ sender := A.name, message := m, timestamp := now, read := false }] ∧
    (getAndClearReceivedTexts
        (getAndClearReceivedTexts
          { B with receivedTexts := B.receivedTexts ++
              [{ sender := A.name, message := m, timestamp := now, read := false }] }).2).1
      = [] ∧
    executeTextTimeout ida nb m
        [(ida, { A with currentUtterance := some ("📱 → " ++ nb ++ ": " ++ m),
                        utteranceEndTime := now + 3000 }),
         (idb, { B with receivedTexts := B.receivedTexts ++
                   [{ sender := A.name, message := m, timestamp := now, read := false }] })]
      = ([(ida, { A with currentAction := "idle", currentUtterance := none,
                         utteranceEndTime := 0 }),
          (idb, { B with receivedTexts := B.receivedTexts ++
                    [{ sender := A.name, message := m, timestamp := now, read := false }] })],
         [Event.actionCompletionText ida m nb]) := by
  have hii : (ida == ida) = true := by simp
  have hbi : (idb == ida) = false := by simp [Ne.symm hids]
  have hAn : (A.name == nb) = false := by simp [hAname]
  have hBn : (B.name == nb) = true := by simp [hBname]
  have hib : (ida == idb) = false := by simp [hids]
  have hbb : (idb == idb) = true := by simp
  refine ⟨?_, ?_, drain_after_drain _, ?_⟩
  · simp [executeTextImmediate, lookupAgent, getAgentIdByName, updateAgent,
      List.find?_cons, hii, hbi, hAn, hBn, hib, hbb]
  · simp [getAndClearReceivedTexts, List.filter_append, hBempty]
  · simp [executeTextTimeout, updateAgent, hii, hbi]

/-- C7 witness: the delivery at a concrete pair of agents and the message
hi. -/
theorem C7_text_messaging_witness :
    ("agent1" : String) ≠ "agent2" ∧
    (mkAgent "agent1" "Alpha" "text" false).name ≠ "Beta" ∧
    (mkAgent "agent2" "Beta" "idle" false).name = "Beta" ∧
    (mkAgent "agent2" "Beta" "idle" false).receivedTexts.filter (fun t => !t.read) = [] ∧
    (getAndClearReceivedTexts
        { mkAgent "agent2" "Beta" "idle" false with
            receivedTexts := (mkAgent "agent2" "Beta" "idle" false).receivedTexts ++
              [{ sender := (mkAgent "agent1" "Alpha" "text" false).name, message := "hi",
                 timestamp := 7, read := false }] }).1
      = [{ sender := (mkAgent "agent1" "Alpha" "text" false).name, message := "hi",
           timestamp := 7, read := false }] := by
  have h := C7_text_messaging "agent1" "agent2" "Beta" "hi"
    (mkAgent "agent1" "Alpha" "text" false) (mkAgent "agent2" "Beta" "idle" false) 7
    (by decide) (by decide) rfl rfl
  exact ⟨by decide, by decide, rfl, rfl, h.2.1⟩

/-- C10: a text decision whose recipient name matches no registered agent
leaves the sender stuck in the text action. executeDecision has already
set the sender currentAction to text and dispatched to the text executor;
the synchronous part of executeText sets the sender utterance and display
deadline, then fails the recipient lookup, logs the error, drops the
message (every other registry entry is untouched) and returns without
scheduling the display timeout — so nothing ever resets the sender to
idle, clears its utterance, or raises its text action completion. -/
theorem C10_unknown_recipient (ida r m : String) (A : Agent) (now : ℕ)
    (agents : List (String × Agent))
    (hA : lookupAgent agents ida = some A)
    (hno : ∀ p ∈ agents, p.2.name ≠ r) :
    (∀ a0 : Agent, executeDecision
        { action := "text", target := some (DTarget.agentRef r), utterance := some m } a0
      = ({ a0 with isMakingDecision := false, currentAction := "text",
                   goalTarget := some (DTarget.agentRef r) },
         ExecCall.text (some r) m)) ∧
    executeTextImmediate ida r m now agents
      = (updateAgent agents ida (fun a =>
           { a with currentUtterance := some ("📱 → " ++ r ++ ": " ++ m),
                    utteranceEndTime := now + 3000 }),
         [Event.recipientNotFoundError r], false) ∧
    lookupAgent (executeTextImmediate ida r m now agents).1 ida
      = some { A with currentUtterance := some ("📱 → " ++ r ++ ": " ++ m),
                      utteranceEndTime := now + 3000 } ∧
    (∀ j aj, j ≠ ida → (j, aj) ∈ agents →
        (j, aj) ∈ (executeTextImmediate ida r m now agents).1) := by
  have hname : getAgentIdByName
      (updateAgent agents ida (fun a =>
        { a with currentUtterance := some ("📱 → " ++ r ++ ": " ++ m),
                 utteranceEndTime := now + 3000 })) r = none :=
    getAgentIdByName_update_none agents ida r _ (fun a => rfl) hno
  have hmain : executeTextImmediate ida r m now agents
      = (updateAgent agents ida (fun a =>
           { a with currentUtterance := some ("📱 → " ++ r ++ ": " ++ m),
                    utteranceEndTime := now + 3000 }),
         [Event.recipientNotFoundError r], false) := by
    simp [executeTextImmediate, hA, hname]
  refine ⟨?_, hmain, ?_, ?_⟩
  · intro a0
    simp [executeDecision, execCallFor, DTarget.agentName]
  · rw [hmain]
    exact lookupAgent_updateAgent_self agents ida _ A hA
  · intro j aj hj hmem
    rw [hmain]
    exact mem_updateAgent_of_ne agents ida _ j aj hj hmem

/-- C10 witness: the stuck sender at a concrete registry with no agent
named Ghost. -/
theorem C10_unknown_recipient_witness :
    lookupAgent [("agent1", mkAgent "agent1" "Alpha" "text" false)] "agent1"
      = some (mkAgent "agent1" "Alpha" "text" false) ∧
    (∀ p ∈ [("agent1", mkAgent "agent1" "Alpha" "text" false)], p.2.name ≠ "Ghost") ∧
    executeTextImmediate "agent1" "Ghost" "hi" 0
        [("agent1", mkAgent "agent1" "Alpha" "text" false)]
      = (updateAgent [("agent1", mkAgent "agent1" "Alpha" "text" false)] "agent1"
           (fun a => { a with currentUtterance := some ("📱 → " ++ "Ghost" ++ ": " ++ "hi"),
                              utteranceEndTime := 0 + 3000 }),
         [Event.recipientNotFoundError "Ghost"], false) := by
  have h := C10_unknown_recipient "agent1" "Ghost" "hi"
    (mkAgent "agent1" "Alpha" "text" false) 0
    [("agent1", mkAgent "agent1" "Alpha" "text" false)] rfl (by decide)
  exact ⟨rfl, by decide, h.2.1⟩

/-- The per-agent pickup returns exactly the first eligible coin in
object insertion order, with its collected flag set. -/
theorem checkCoinCollection_eq_find (a : Agent) (objs : List WorldObject) :
    (SensorySystem.checkCoinCollection a objs).1
      = (objs.find? (coinEligible a)).map (fun o => { o with collected := true }) := by
  induction objs with
  | nil => rfl
  | cons o rest ih =>
      by_cases h : coinEligible a o = true
      · simp [SensorySystem.checkCoinCollection, h, List.find?_cons_of_pos]
      · simp only [SensorySystem.checkCoinCollection, h, if_false, Bool.false_eq_true]
        rw [List.find?_cons_of_neg _ (by simp [h]), ← ih]

/-- Already collected objects survive a pickup pass unchanged. -/
theorem collected_mem_checkCoinCollection (a : Agent) (objs : List WorldObject)
    (o : WorldObject) (ho : o ∈ objs) (hc : o.collected = true) :
    o ∈ (SensorySystem.checkCoinCollection a objs).2 := by
  induction objs with
  | nil => cases ho
  | cons q rest ih =>
      by_cases h : coinEligible a q = true
      · rcases List.mem_cons.mp ho with rfl | ho2
        · exfalso
          simp [coinEligible, hc] at h
        · simp only [SensorySystem.checkCoinCollection, h, if_true]
          exact List.mem_cons_of_mem _ ho2
      · rcases List.mem_cons.mp ho with rfl | ho2
        · simp [SensorySystem.checkCoinCollection, h]
        · simp only [SensorySystem.checkCoinCollection, h, if_false, Bool.false_eq_true]
          exact List.mem_cons_of_mem _ (ih ho2)

/-- A returned pickup always stems from a previously uncollected eligible
coin of the pass input, whose flag transitions false to true. -/
theorem checkCoinCollection_some (a : Agent) (objs : List WorldObject)
    (c : WorldObject) (h : (SensorySystem.checkCoinCollection a objs).1 = some c) :
    c.collected = true ∧
    ∃ o ∈ objs, o.collected = false ∧ coinEligible a o = true ∧
      c = { o with collected := true } := by
  induction objs with
  | nil => cases h
  | cons q rest ih =>
      by_cases hq : coinEligible a q = true
      · have hc : c = { q with collected := true } := by
          have := h
          simp only [SensorySystem.checkCoinCollection, hq, if_true,
            Option.some.injEq] at this
          exact this.symm
        have hqc : q.collected = false := by
          simp only [coinEligible, Bool.and_eq_true, Bool.not_eq_true'] at hq
          exact hq.1.1.2
        refine ⟨by simp [hc], q, List.mem_cons_self _ _, hqc, hq, hc⟩
      · have h2 : (SensorySystem.checkCoinCollection a rest).1 = some c := by
          simpa [SensorySystem.checkCoinCollection, hq] using h
        rcases ih h2 with ⟨hcol, o, ho, rest2⟩
        exact ⟨hcol, o, List.mem_cons_of_mem _ ho, rest2⟩

/-- Collected collectibles never appear in the perceivable set. -/
theorem collected_not_visible (a : Agent) (objs : List WorldObject)
    (o : WorldObject) (ht : o.type = "collectible") (hc : o.collected = true) :
    o ∉ getVisibleObjects a objs := by
  intro hmem
  have := List.of_mem_filter hmem
  simp [ht, hc] at this

/-- C8: in each pickup pass an agent collects at most one coin — exactly
the first eligible (uncollected collectible within the 0.5 collection
radius, half the observation radius, in 2D x z distance) in object order,
whose collected flag transitions false to true; an already collected coin
survives every pass unchanged, is never eligible again, and is excluded
from perception snapshots; and when two agents could claim the same single
coin in one world pass, the agent earlier in registry insertion order
collects it (its counter is incremented and it is reset to idle) while the
later agent collects nothing. -/
theorem C8_coin_collection (a a2 : Agent) (objs : List WorldObject)
    (id1 id2 : String) (c : WorldObject) :
    ((SensorySystem.checkCoinCollection a objs).1
        = (objs.find? (coinEligible a)).map (fun o => { o with collected := true })) ∧
    (∀ o ∈ objs, o.collected = true →
        o ∈ (SensorySystem.checkCoinCollection a objs).2 ∧ coinEligible a o = false) ∧
    (∀ c0, (SensorySystem.checkCoinCollection a objs).1 = some c0 →
        c0.collected = true ∧ ∃ o ∈ objs, o.collected = false ∧
          coinEligible a o = true ∧ c0 = { o with collected := true }) ∧
    (∀ o ∈ objs, o.type = "collectible" → o.collected = true →
        o ∉ getVisibleObjects a objs) ∧
    (c.collected = false → coinEligible a c = true → coinEligible a2 c = true →
      WorldSimulator.checkCoinCollection [(id1, a), (id2, a2)] [c]
        = ([(id1, { a with coinsCollected := a.coinsCollected + 1,
                           currentAction := "idle" }),
            (id2, a2)],
           [{ c with collected := true }],
           [{ agentId := id1, coinId := c.id }])) := by
  refine ⟨checkCoinCollection_eq_find a objs, ?_, ?_, ?_, ?_⟩
  · intro o ho hc
    refine ⟨collected_mem_checkCoinCollection a objs o ho hc, ?_⟩
    simp [coinEligible, hc]
  · intro c0 h
    exact checkCoinCollection_some a objs c0 h
  · intro o ho ht hc
    exact collected_not_visible a objs o ht hc
  · intro hcol h1 h2
    have hnot : coinEligible a2 { c with collected := true } = false := by
      simp [coinEligible]
    simp [WorldSimulator.checkCoinCollection, SensorySystem.checkCoinCollection,
      h1, hnot]

/-- C8 witness: a coin at distance 0.3 (within the 0.5 collection radius)
contested by two agents at the origin; the first registered agent collects
it, and its collected flag blocks the later agent in the same pass. -/
theorem C8_coin_collection_witness :
    ({ id := "coin_0", name := "coin",
       position := { x := 3/10, y := 3/10, z := 0 }, type := "collectible",
       collected := false } : WorldObject).collected = false ∧
    coinEligible (mkAgent "agent1" "Alpha" "idle" false)
      { id := "coin_0", name := "coin",
        position := { x := 3/10, y := 3/10, z := 0 }, type := "collectible",
        collected := false } = true ∧
    coinEligible (mkAgent "agent2" "Beta" "idle" false)
      { id := "coin_0", name := "coin",
        position := { x := 3/10, y := 3/10, z := 0 }, type := "collectible",
        collected := false } = true ∧
    WorldSimulator.checkCoinCollection
        [("agent1", mkAgent "agent1" "Alpha" "idle" false),
         ("agent2", mkAgent "agent2" "Beta" "idle" false)]
        [{ id := "coin_0", name := "coin",
           position := { x := 3/10, y := 3/10, z := 0 }, type := "collectible",
           collected := false }]
      = ([("agent1", { mkAgent "agent1" "Alpha" "idle" false with
                        coinsCollected := 1, currentAction := "idle" }),
          ("agent2", mkAgent "agent2" "Beta" "idle" false)],
         [{ id := "coin_0", name := "coin",
            position := { x := 3/10, y := 3/10, z := 0 }, type := "collectible",
            collected := true }],
         [{ agentId := "agent1", coinId := "coin_0" }]) := by
  have h := C8_coin_collection (mkAgent "agent1" "Alpha" "idle" false)
    (mkAgent "agent2" "Beta" "idle" false) [] "agent1" "agent2"
    { id := "coin_0", name := "coin",
      position := { x := 3/10, y := 3/10, z := 0 }, type := "collectible",
      collected := false }
  have e1 : coinEligible (mkAgent "agent1" "Alpha" "idle" false)
      { id := "coin_0", name := "coin",
        position := { x := 3/10, y := 3/10, z := 0 }, type := "collectible",
        collected := false } = true := by
    simp only [coinEligible, dist2, mkAgent, collectionRadius, visibilityRadius,
      Bool.and_eq_true, beq_iff_eq, Bool.not_eq_true', decide_eq_true_eq]
    norm_num
  have e2 : coinEligible (mkAgent "agent2" "Beta" "idle" false)
      { id := "coin_0", name := "coin",
        position := { x := 3/10, y := 3/10, z := 0 }, type := "collectible",
        collected := false } = true := by
    simp only [coinEligible, dist2, mkAgent, collectionRadius, visibilityRadius,
      Bool.and_eq_true, beq_iff_eq, Bool.not_eq_true', decide_eq_true_eq]
    norm_num
  exact ⟨rfl, e1, e2, h.2.2.2.2 rfl e1 e2⟩

/-- Once some frame time reaches the duration, the animation loop ends at
exactly the target point (progress is clamped to one), with exactly one
completion, leaving y untouched. -/
theorem animateFrames_complete (startPos : Pos) (tx tz duration : ℚ)
    (frames : List ℚ) (pos : Pos) (hdur : 0 < duration)
    (hhit : ∃ t ∈ frames, duration ≤ t) :
    animateFrames startPos tx tz duration frames pos
      = ({ x := tx, y := startPos.y, z := tz }, 1) := by
  induction frames generalizing pos with
  | nil => simp at hhit
  | cons t ts ih =>
      by_cases hlt : moveProgress t duration < 1
      · rcases hhit with ⟨t0, ht0mem, ht0⟩
        rcases List.mem_cons.mp ht0mem with rfl | hts
        · exfalso
          have h1 : (1:ℚ) ≤ t0 / duration := (one_le_div hdur).mpr ht0
          have h2 : moveProgress t0 duration = 1 := by
            simp [moveProgress, min_eq_right h1]
          rw [h2] at hlt
          exact absurd hlt (lt_irrefl 1)
        · simp only [animateFrames, hlt, if_true]
          exact ih _ ⟨t0, hts, ht0⟩
      · have h2 : moveProgress t duration = 1 :=
          le_antisymm (min_le_right _ _) (not_lt.mp hlt)
        simp only [animateFrames, hlt, if_false]
        rw [h2]
        have hl : lerpPos startPos tx tz 1 = { x := tx, y := startPos.y, z := tz } := by
          simp only [lerpPos, Pos.mk.injEq]
          exact ⟨by ring, trivial, by ring⟩
        rw [hl]

/-- C9: for a move with target point (tx, tz) at distance d (the square
root of the squared plane distance, supplied with its defining
properties): when the agent starts within the 0.1 epsilon of the target,
the action completes immediately — back to idle with a cleared goal and
one completion trigger; otherwise each animation frame at elapsed time t
places the agent at the linear interpolation from start toward target at
progress min(t / (d/2), 1) with y unchanged, and as soon as a frame time
reaches the duration d/2 (distance over the constant speed 2), the agent
is exactly at the target, is back to idle with a cleared goal, and exactly
one completion trigger has fired. -/
theorem C9_movement (a : Agent) (tx tz d : ℚ) (frames : List ℚ)
    (_hd0 : 0 ≤ d)
    (_hdist : d * d = dist2 a.position { x := tx, y := a.position.y, z := tz }) :
    (d < moveEpsilon →
      executeMovement a tx tz d frames
        = ({ a with currentAction := "idle", goalTarget := none }, 1)) ∧
    (¬ d < moveEpsilon → (∃ t ∈ frames, d / 2 ≤ t) →
      executeMovement a tx tz d frames
        = ({ a with position := { x := tx, y := a.position.y, z := tz },
                    currentAction := "idle", goalTarget := none }, 1)) ∧
    (∀ t : ℚ, moveProgress t (d / 2) < 1 →
      (animateFrames a.position tx tz (d / 2) [t] a.position).1
        = lerpPos a.position tx tz (moveProgress t (d / 2))) := by
  refine ⟨?_, ?_, ?_⟩
  · intro heps
    simp [executeMovement, heps]
  · intro heps hhit
    have hdur : 0 < d / 2 := by
      have h1 : moveEpsilon ≤ d := not_lt.mp heps
      have h2 : (0:ℚ) < moveEpsilon := by norm_num [moveEpsilon]
      linarith
    have hrun := animateFrames_complete a.position tx tz (d / 2) frames
      a.position hdur hhit
    simp [executeMovement, heps, hrun]
  · intro t hlt
    simp [animateFrames, hlt]

/-- C9 witness: an agent at the origin moving to (4, 0); the distance is
4, the duration 2 seconds, and the frame at elapsed time 2 lands it
exactly on the target with one completion. -/
theorem C9_movement_witness :
    (0:ℚ) ≤ 4 ∧
    (4:ℚ) * 4 = dist2 (mkAgent "agent1" "Alpha" "move" false).position
      { x := 4, y := (mkAgent "agent1" "Alpha" "move" false).position.y, z := 0 } ∧
    ¬ (4:ℚ) < moveEpsilon ∧
    ((2:ℚ) ∈ [(1:ℚ), 2] ∧ (4:ℚ) / 2 ≤ 2) ∧
    executeMovement (mkAgent "agent1" "Alpha" "move" false) 4 0 4 [1, 2]
      = ({ mkAgent "agent1" "Alpha" "move" false with
            position := { x := 4, y := (mkAgent "agent1" "Alpha" "move" false).position.y,
                          z := 0 },
            currentAction := "idle", goalTarget := none }, 1) := by
  have h := C9_movement (mkAgent "agent1" "Alpha" "move" false) 4 0 4 [1, 2]
    (by norm_num) (by norm_num [dist2, mkAgent])
  refine ⟨by norm_num, by norm_num [dist2, mkAgent], by norm_num [moveEpsilon],
    ⟨by norm_num, by norm_num⟩, ?_⟩
  exact h.2.1 (by norm_num [moveEpsilon]) ⟨2, by norm_num, by norm_num⟩

end Sim
